import Mathlib

/-!
Supervised child processes (process.go)

A shallow embedding of `process.go` of the overseer package: the
`ChildProcess` record, its constructor `NewChild`, `CloneChild`, the status
projection `ToJSON` and the four locked mutators.

Go pointers and slices are modelled with an explicit memory: records live at
addresses, a `[]string` is a slice header into a backing array, and every
method is a function on the memory.  The memory also keeps the sequence of
mutex operations and field accesses in program order.
-/

namespace Overseer

/-! ## Constants (process.go, lines 10-14) -/

/-- Length of a generated id. -/
def idLength : Nat := 16

/-- Default delay before a start, in milliseconds. -/
def defaultDelayStart : Nat := 25

/-- Default number of restarts on failure. -/
def defaultRetryTimes : Nat := 3

/-! ## Go values -/

/-- Address of a `ChildProcess` record (a Go `*ChildProcess`). -/
abbrev Ptr := Nat

/-- A Go `float64`, kept as its IEEE-754 bit pattern; `0` is the value `+0.0`.
The program only copies such values. -/
abbrev Float64 := Nat

/-- A Go `[]string`: a slice header.  `arr` names the backing array (`none`
for the nil slice), `off` is the position of element 0 in it. -/
structure StrSlice where
  arr : Option Nat
  off : Nat
  len : Nat
  cap : Nat
deriving DecidableEq, Repr

/-- The nil slice, zero value of `[]string`. -/
def StrSlice.nil : StrSlice := ⟨none, 0, 0, 0⟩

/-- A Go `time.Time` of the standard library: `wall` holds the nanoseconds
(no monotonic reading), `ext` the seconds since January 1 of year 1, `loc`
the location pointer (`none` is nil, meaning UTC; `some "Local"` is
`time.Local`). -/
structure Time where
  wall : Nat
  ext : Int
  loc : Option String
deriving DecidableEq, Repr

namespace Time

/-- The zero value of `time.Time`: January 1, year 1, 00:00:00 UTC. -/
def zero : Time := ⟨0, 0, none⟩

/-- Seconds between January 1 of year 1 and January 1 of 1970
(`unixToInternal` of the standard library). -/
def unixToInternal : Int := (1969 * 365 + 1969 / 4 - 1969 / 100 + 1969 / 400) * 86400

/-- Wrap an integer to the range of a Go `int64`. -/
def wrap64 (x : Int) : Int := (x + 2 ^ 63) % 2 ^ 64 - 2 ^ 63

/-- The standard library `unixTime(sec, nsec)`. -/
def unixTime (sec : Int) (nsec : Int) : Time :=
  ⟨nsec.toNat, wrap64 (sec + unixToInternal), some "Local"⟩

/-- The standard library `time.Unix(sec, nsec)`: the local time `sec` seconds
and `nsec` nanoseconds after January 1, 1970 UTC.  Integer division
truncates toward zero, as in Go. -/
def Unix (sec : Int) (nsec : Int) : Time :=
  if nsec < 0 ∨ nsec ≥ 1000000000 then
    let n := Int.tdiv nsec 1000000000
    let sec1 := wrap64 (sec + n)
    let nsec1 := wrap64 (nsec - n * 1000000000)
    if nsec1 < 0 then
      unixTime (wrap64 (sec1 - 1)) (wrap64 (nsec1 + 1000000000))
    else
      unixTime sec1 nsec1
  else
    unixTime sec nsec

/-- The standard library `Time.IsZero`: seconds and nanoseconds are both 0. -/
def IsZero (t : Time) : Bool := t.ext == 0 && t.wall % 2 ^ 30 == 0

end Time

/-! ## fmt.Sprint -/

/-- An operand of `fmt.Sprint` as used by `ToJSON`: a string, or a `[]string`
given by its elements. -/
inductive Operand where
  | str (s : String)
  | strs (xs : List String)
deriving DecidableEq, Repr

/-- Whether the operand is of kind string. -/
def Operand.isString : Operand → Bool
  | .str _ => true
  | .strs _ => false

/-- Default format (`%v`) of one operand: a string prints as itself, a slice
prints as its elements separated by single spaces, between square brackets. -/
def Operand.format : Operand → String
  | .str s => s
  | .strs xs => "[" ++ " ".intercalate xs ++ "]"

/-- The loop of `doPrint`: a space goes between two operands when neither is
a string. -/
def doPrint : Bool → Bool → List Operand → String
  | _, _, [] => ""
  | first, prevString, a :: rest =>
    (if !first && !a.isString && !prevString then " " else "")
      ++ a.format ++ doPrint false a.isString rest

/-- The standard library `fmt.Sprint`. -/
def Sprint (a : List Operand) : String := doPrint true false a

/-! ## The process handle (package go-cmd) -/

/-- Modelled from the spec: the status record of the process handle (go-cmd
`Status`, not part of this source file), with the fields that `ToJSON`
reads: PID, completion flag, exit code, error (nullable), start timestamp in
nanoseconds, runtime in seconds. -/
structure cmd.Status where
  PID : Int
  Complete : Bool
  Exit : Int
  Error : Option String
  StartTs : Int
  Runtime : Float64
deriving DecidableEq, Repr

/-- Modelled from the spec: the status of a handle before any start, all
zero / false / nil. -/
def cmd.Status.zero : cmd.Status := ⟨0, false, 0, none, 0, 0⟩

/-- The go-cmd `Options` literal passed by the constructors. -/
structure cmd.Options where
  Buffered : Bool
  Streaming : Bool
deriving DecidableEq, Repr

/-- Modelled from the spec: the process handle `cmd.Cmd` (go-cmd, not part of
this source file): command name, arguments, environment, working directory,
output options and the status it reports.  Its mutex is the lock of the
record that embeds it. -/
structure cmd.Cmd where
  Name : String
  Args : StrSlice
  Env : StrSlice
  Dir : String
  options : cmd.Options
  status : cmd.Status
deriving DecidableEq, Repr

/-- Modelled from the spec: `cmd.NewCmdOptions` (go-cmd, not part of this
source file) creates a brand-new, unstarted handle for the command: no
environment, no directory, status all zero. -/
def cmd.NewCmdOptions (options : cmd.Options) (name : String) (args : StrSlice) : cmd.Cmd :=
  ⟨name, args, StrSlice.nil, "", options, cmd.Status.zero⟩

/-- The `ChildProcess` structure (process.go, lines 17-22): the embedded
`cmd.Cmd`, the private id, `DelayStart` and `RetryTimes`. -/
structure ChildProcess extends cmd.Cmd where
  id : String
  DelayStart : Nat
  RetryTimes : Nat
deriving DecidableEq, Repr

/-- The `JSONProcess` structure (process.go, lines 25-37). -/
structure JSONProcess where
  Cmd : String
  PID : Int
  Complete : Bool
  ExitCode : Int
  Error : Option String
  RunTime : Float64
  StartTime : Time
  Env : StrSlice
  Dir : String
  DelayStart : Nat
  RetryTimes : Nat
deriving DecidableEq, Repr

/-! ## Memory -/

/-- The fields of a record that the methods read or write. -/
inductive Field where
  | Name
  | Args
  | Env
  | Dir
  | status
  | id
  | DelayStart
  | RetryTimes
deriving DecidableEq, Repr

/-- One step of a method that matters for synchronisation: a mutex
operation on a record, or an access to one of its fields. -/
inductive Event where
  | lock (p : Ptr)
  | unlock (p : Ptr)
  | read (p : Ptr) (f : Field)
  | write (p : Ptr) (f : Field)
deriving DecidableEq, Repr

/-- The record found at an address that holds nothing yet. -/
def ChildProcess.blank : ChildProcess :=
  { toCmd := cmd.NewCmdOptions ⟨false, false⟩ "" StrSlice.nil, id := "", DelayStart := 0, RetryTimes := 0 }

/-- The memory of the program: the backing arrays of the `[]string` slices,
the records by address, the next free array and address, and the events of
the calls made so far, oldest first. -/
structure Mem where
  arrays : Nat → List String
  nextArr : Nat
  procs : Ptr → ChildProcess
  nextProc : Ptr
  log : List Event

namespace Mem

/-- The empty memory. -/
def empty : Mem := ⟨fun _ => [], 0, fun _ => ChildProcess.blank, 0, []⟩

/-- The elements of a slice, read through its header. -/
def elems (m : Mem) (s : StrSlice) : List String :=
  match s.arr with
  | none => []
  | some a => ((m.arrays a).drop s.off).take s.len

/-- A slice literal `[]string{x1, ..., xk}`: a fresh backing array. -/
def newSlice (m : Mem) (xs : List String) : StrSlice × Mem :=
  (⟨some m.nextArr, 0, xs.length, xs.length⟩,
   { m with arrays := Function.update m.arrays m.nextArr xs, nextArr := m.nextArr + 1 })

/-- The Go index assignment `s[i] = v` on a slice: it writes the backing
array; out of range it panics (`none`). -/
def setElem (m : Mem) (s : StrSlice) (i : Nat) (v : String) : Option Mem :=
  match s.arr with
  | none => none
  | some a =>
    if i < s.len then
      some { m with arrays := Function.update m.arrays a ((m.arrays a).set (s.off + i) v) }
    else none

/-- Append an event to the log. -/
def note (m : Mem) (e : Event) : Mem := { m with log := m.log ++ [e] }

/-- Allocate a record (`&ChildProcess{...}`): the result is its address. -/
def new (m : Mem) (r : ChildProcess) : Ptr × Mem :=
  (m.nextProc, { m with procs := Function.update m.procs m.nextProc r, nextProc := m.nextProc + 1 })

/-- Overwrite one field of the record at `c`, noting the write. -/
def store (m : Mem) (c : Ptr) (f : Field) (upd : ChildProcess → ChildProcess) : Mem :=
  { m with procs := Function.update m.procs c (upd (m.procs c)), log := m.log ++ [Event.write c f] }

/-- Read one field of the record at `c`, noting the read. -/
def load {α : Type} (m : Mem) (c : Ptr) (f : Field) (get : ChildProcess → α) : α × Mem :=
  (get (m.procs c), m.note (Event.read c f))

end Mem

/-! ## The identifier generator -/

/-- The alphabet of the generated ids: letters and digits. -/
def alphabet : List Char :=
  "abcdefghijklmnopqrstuvwxyzABCDEFGHIJKLMNOPQRSTUVWXYZ0123456789".toList

/-- Modelled from the spec: `randomKey` (not part of this source file)
returns a string of exactly `length` characters, each drawn from a fixed
alphabet of letters and digits.  The randomness is explicit: `draws i` is
the number drawn for position `i` of this call. -/
def randomKey (length : Nat) (draws : Nat → Nat) : String :=
  String.mk ((List.range length).map fun i => alphabet.getD (draws i % alphabet.length) 'a')

/-! ## The methods of process.go -/

/-- The `c.Lock()` of the embedded mutex. -/
def Lock (c : Ptr) (m : Mem) : Mem := m.note (Event.lock c)

/-- The `c.Unlock()` of the embedded mutex. -/
def Unlock (c : Ptr) (m : Mem) : Mem := m.note (Event.unlock c)

/-- Modelled from the spec: `Status()` of the handle (go-cmd, not part of
this source file) is thread-safe: it returns the status record of the
handle, read under the lock of the record. -/
def Status (c : Ptr) (m : Mem) : cmd.Status × Mem :=
  let m := Lock c m
  let (s, m) := m.load c Field.status (fun r => r.status)
  (s, Unlock c m)

/-- The function `NewChild` (process.go, lines 40-48). -/
def NewChild (name : String) (args : StrSlice) (draws : Nat → Nat) (m : Mem) : Ptr × Mem :=
  let c := cmd.NewCmdOptions ⟨false, true⟩ name args
  let randID := randomKey idLength draws
  m.new { toCmd := c, id := randID, DelayStart := defaultDelayStart, RetryTimes := defaultRetryTimes }

/-- The method `SetDir` (process.go, lines 90-94); the deferred unlock runs
last. -/
def SetDir (c : Ptr) (dir : String) (m : Mem) : Mem :=
  let m := Lock c m
  let m := m.store c Field.Dir (fun r => { r with Dir := dir })
  Unlock c m

/-- The method `SetEnv` (process.go, lines 98-102): the slice header is
assigned, the elements are not copied. -/
def SetEnv (c : Ptr) (env : StrSlice) (m : Mem) : Mem :=
  let m := Lock c m
  let m := m.store c Field.Env (fun r => { r with Env := env })
  Unlock c m

/-- The method `SetDelayStart` (process.go, lines 105-109). -/
def SetDelayStart (c : Ptr) (delayStart : Nat) (m : Mem) : Mem :=
  let m := Lock c m
  let m := m.store c Field.DelayStart (fun r => { r with DelayStart := delayStart })
  Unlock c m

/-- The method `SetRetryTimes` (process.go, lines 112-116). -/
def SetRetryTimes (c : Ptr) (retryTimes : Nat) (m : Mem) : Mem :=
  let m := Lock c m
  let m := m.store c Field.RetryTimes (fun r => { r with RetryTimes := retryTimes })
  Unlock c m

/-- The method `CloneChild` (process.go, lines 52-66). -/
def CloneChild (c : Ptr) (draws : Nat → Nat) (m : Mem) : Ptr × Mem :=
  let (name, m) := m.load c Field.Name (fun r => r.Name)
  let (args, m) := m.load c Field.Args (fun r => r.Args)
  let clone := cmd.NewCmdOptions ⟨false, true⟩ name args
  let randID := randomKey idLength draws
  let (p, m) := m.new
    { toCmd := clone, id := randID, DelayStart := defaultDelayStart, RetryTimes := defaultRetryTimes }
  let (dir, m) := m.load c Field.Dir (fun r => r.Dir)
  let m := SetDir p dir m
  let (env, m) := m.load c Field.Env (fun r => r.Env)
  let m := SetEnv p env m
  let (delayStart, m) := m.load c Field.DelayStart (fun r => r.DelayStart)
  let m := SetDelayStart p delayStart m
  let (retryTimes, m) := m.load c Field.RetryTimes (fun r => r.RetryTimes)
  let m := SetRetryTimes p retryTimes m
  (p, m)

/-- The method `ToJSON` (process.go, lines 69-86). -/
def ToJSON (c : Ptr) (m : Mem) : JSONProcess × Mem :=
  let (s, m) := Status c m
  let (name, m) := m.load c Field.Name (fun r => r.Name)
  let (args, m) := m.load c Field.Args (fun r => r.Args)
  let cmd := Sprint [Operand.str name, Operand.str " ", Operand.strs (m.elems args)]
  let startTime := Time.Unix 0 s.StartTs
  let (env, m) := m.load c Field.Env (fun r => r.Env)
  let (dir, m) := m.load c Field.Dir (fun r => r.Dir)
  let (delayStart, m) := m.load c Field.DelayStart (fun r => r.DelayStart)
  let (retryTimes, m) := m.load c Field.RetryTimes (fun r => r.RetryTimes)
  (⟨cmd, s.PID, s.Complete, s.Exit, s.Error, s.Runtime, startTime, env, dir,
    delayStart, retryTimes⟩, m)

/-! ## Calls of the mutators -/

/-- A call of one of the four mutators, with its argument. -/
inductive Mutation where
  | SetDir (dir : String)
  | SetEnv (env : StrSlice)
  | SetDelayStart (delayStart : Nat)
  | SetRetryTimes (retryTimes : Nat)
deriving DecidableEq, Repr

/-- Run one mutator call on the record at `c`. -/
def Mutation.call (c : Ptr) : Mutation → Mem → Mem
  | .SetDir dir, m => Overseer.SetDir c dir m
  | .SetEnv env, m => Overseer.SetEnv c env m
  | .SetDelayStart delayStart, m => Overseer.SetDelayStart c delayStart m
  | .SetRetryTimes retryTimes, m => Overseer.SetRetryTimes c retryTimes m

/-- Run a sequence of mutator calls on the record at `c`, first call first. -/
def callAll (c : Ptr) : List Mutation → Mem → Mem
  | [], m => m
  | x :: xs, m => callAll c xs (x.call c m)

/-- Whether the call overwrites `DelayStart`. -/
def Mutation.isSetDelayStart : Mutation → Bool
  | .SetDelayStart _ => true
  | _ => false

/-- Whether the call overwrites `RetryTimes`. -/
def Mutation.isSetRetryTimes : Mutation → Bool
  | .SetRetryTimes _ => true
  | _ => false

/-! ## Lock discipline -/

/-- The configuration fields of a record. -/
def Field.isConfig : Field → Bool
  | .Dir => true
  | .Env => true
  | .DelayStart => true
  | .RetryTimes => true
  | _ => false

/-- Whether every read and write of a configuration field in a sequence of
events happens while the lock of its record is held; `held` lists the
records whose lock is held before the first event. -/
def guarded : List Ptr → List Event → Bool
  | _, [] => true
  | held, Event.lock p :: es => guarded (p :: held) es
  | held, Event.unlock p :: es => guarded (held.erase p) es
  | held, Event.read p f :: es => (!f.isConfig || held.contains p) && guarded held es
  | held, Event.write p f :: es => (!f.isConfig || held.contains p) && guarded held es

/-- The memory with its log emptied: the starting point for looking at the
events of one call. -/
def Mem.clearLog (m : Mem) : Mem := { m with log := [] }

/-! ## Concrete memories -/

/-- The memory after `NewChild("echo", "hello")`, `SetDelayStart(100)` and
`SetRetryTimes(5)`, starting from the empty memory; the record is at
address 0 and its id is drawn as `abcdefghijklmnop`. -/
def echoMem : Mem :=
  let a := Mem.empty.newSlice ["hello"]
  let n := NewChild "echo" a.1 (fun i => i) a.2
  SetRetryTimes n.1 5 (SetDelayStart n.1 100 n.2)

/-- The memory after `NewChild("echo", "hello")` alone: a record that was
never started, at address 0. -/
def freshMem : Mem :=
  let a := Mem.empty.newSlice ["hello"]
  (NewChild "echo" a.1 (fun i => i) a.2).2

/-- The memory after `NewChild("echo", "hello")` followed by
`SetEnv([]string{"A=1"})`: the record is at address 0, its environment
lives in backing array 1. -/
def envMem : Mem :=
  let a := Mem.empty.newSlice ["hello"]
  let n := NewChild "echo" a.1 (fun i => i) a.2
  let e := n.2.newSlice ["A=1"]
  SetEnv n.1 e.1 e.2

/-- The record at address 0 of `echoMem` after its process ran to
completion: PID 4242, exit code 1, an error, a start time and a runtime of
one second (bit pattern of `1.0`). -/
def doneMem : Mem :=
  { echoMem with
    procs := Function.update echoMem.procs 0
      { echoMem.procs 0 with
        status := ⟨4242, true, 1, some "exit status 1", 1700000000000000000,
          4607182418800017408⟩ } }

/-! ## Basic facts about the mutators -/

theorem SetDir_procs (c : Ptr) (dir : String) (m : Mem) :
    (SetDir c dir m).procs = Function.update m.procs c { m.procs c with Dir := dir } := rfl

theorem SetEnv_procs (c : Ptr) (env : StrSlice) (m : Mem) :
    (SetEnv c env m).procs = Function.update m.procs c { m.procs c with Env := env } := rfl

theorem SetDelayStart_procs (c : Ptr) (v : Nat) (m : Mem) :
    (SetDelayStart c v m).procs
      = Function.update m.procs c { m.procs c with DelayStart := v } := rfl

theorem SetRetryTimes_procs (c : Ptr) (v : Nat) (m : Mem) :
    (SetRetryTimes c v m).procs
      = Function.update m.procs c { m.procs c with RetryTimes := v } := rfl

theorem call_arrays (c : Ptr) (x : Mutation) (m : Mem) :
    (x.call c m).arrays = m.arrays := by
  cases x <;> rfl

theorem call_procs_other (c q : Ptr) (x : Mutation) (m : Mem) (h : q ≠ c) :
    (x.call c m).procs q = m.procs q := by
  cases x <;>
    simp [Mutation.call, SetDir_procs, SetEnv_procs, SetDelayStart_procs,
      SetRetryTimes_procs, Function.update_noteq h]

theorem call_fixed (c : Ptr) (x : Mutation) (m : Mem) :
    ((x.call c m).procs c).id = (m.procs c).id
      ∧ ((x.call c m).procs c).Name = (m.procs c).Name
      ∧ ((x.call c m).procs c).Args = (m.procs c).Args
      ∧ ((x.call c m).procs c).status = (m.procs c).status
      ∧ ((x.call c m).procs c).options = (m.procs c).options := by
  cases x <;>
    simp [Mutation.call, SetDir_procs, SetEnv_procs, SetDelayStart_procs,
      SetRetryTimes_procs]

theorem callAll_arrays (c : Ptr) (xs : List Mutation) (m : Mem) :
    (callAll c xs m).arrays = m.arrays := by
  induction xs generalizing m with
  | nil => rfl
  | cons x xs ih => rw [callAll, ih, call_arrays]

theorem callAll_procs_other (c q : Ptr) (xs : List Mutation) (m : Mem) (h : q ≠ c) :
    (callAll c xs m).procs q = m.procs q := by
  induction xs generalizing m with
  | nil => rfl
  | cons x xs ih => rw [callAll, ih, call_procs_other c q x m h]

theorem callAll_fixed (c : Ptr) (xs : List Mutation) (m : Mem) :
    ((callAll c xs m).procs c).id = (m.procs c).id
      ∧ ((callAll c xs m).procs c).Name = (m.procs c).Name
      ∧ ((callAll c xs m).procs c).Args = (m.procs c).Args
      ∧ ((callAll c xs m).procs c).status = (m.procs c).status
      ∧ ((callAll c xs m).procs c).options = (m.procs c).options := by
  induction xs generalizing m with
  | nil => simp [callAll]
  | cons x xs ih =>
    obtain ⟨h1, h2, h3, h4, h5⟩ := ih (x.call c m)
    obtain ⟨k1, k2, k3, k4, k5⟩ := call_fixed c x m
    exact ⟨by rw [callAll, h1, k1], by rw [callAll, h2, k2], by rw [callAll, h3, k3],
      by rw [callAll, h4, k4], by rw [callAll, h5, k5]⟩

theorem callAll_elems (c : Ptr) (xs : List Mutation) (m : Mem) (s : StrSlice) :
    (callAll c xs m).elems s = m.elems s := by
  simp [Mem.elems, callAll_arrays]

theorem callAll_DelayStart (c : Ptr) (xs : List Mutation) (m : Mem)
    (h : ∀ x ∈ xs, x.isSetDelayStart = false) :
    ((callAll c xs m).procs c).DelayStart = (m.procs c).DelayStart := by
  induction xs generalizing m with
  | nil => rfl
  | cons x xs ih =>
    rw [callAll, ih _ (fun y hy => h y (List.mem_cons_of_mem _ hy))]
    have hx := h x (List.mem_cons_self _ _)
    cases x <;>
      simp_all [Mutation.call, SetDir_procs, SetEnv_procs, SetRetryTimes_procs,
        Mutation.isSetDelayStart]

theorem callAll_RetryTimes (c : Ptr) (xs : List Mutation) (m : Mem)
    (h : ∀ x ∈ xs, x.isSetRetryTimes = false) :
    ((callAll c xs m).procs c).RetryTimes = (m.procs c).RetryTimes := by
  induction xs generalizing m with
  | nil => rfl
  | cons x xs ih =>
    rw [callAll, ih _ (fun y hy => h y (List.mem_cons_of_mem _ hy))]
    have hx := h x (List.mem_cons_self _ _)
    cases x <;>
      simp_all [Mutation.call, SetDir_procs, SetEnv_procs, SetDelayStart_procs,
        Mutation.isSetRetryTimes]

/-! ## Basic facts about the constructors and the snapshot -/

theorem Status_fst (c : Ptr) (m : Mem) : (Status c m).1 = (m.procs c).status := rfl

theorem NewChild_fst (name : String) (args : StrSlice) (draws : Nat → Nat) (m : Mem) :
    (NewChild name args draws m).1 = m.nextProc := rfl

theorem NewChild_record (name : String) (args : StrSlice) (draws : Nat → Nat) (m : Mem) :
    (NewChild name args draws m).2.procs m.nextProc
      = { toCmd := cmd.NewCmdOptions ⟨false, true⟩ name args, id := randomKey idLength draws,
          DelayStart := 25, RetryTimes := 3 } := by
  simp [NewChild, Mem.new, defaultDelayStart, defaultRetryTimes]

theorem CloneChild_fst (c : Ptr) (draws : Nat → Nat) (m : Mem) :
    (CloneChild c draws m).1 = m.nextProc := rfl

theorem CloneChild_arrays (c : Ptr) (draws : Nat → Nat) (m : Mem) :
    (CloneChild c draws m).2.arrays = m.arrays := by
  simp [CloneChild, Mem.load, Mem.new, Mem.note, SetDir, SetEnv, SetDelayStart,
    SetRetryTimes, Mem.store, Lock, Unlock]

theorem CloneChild_procs_other (c q : Ptr) (draws : Nat → Nat) (m : Mem)
    (h : q ≠ m.nextProc) : (CloneChild c draws m).2.procs q = m.procs q := by
  simp [CloneChild, Mem.load, Mem.new, Mem.note, SetDir, SetEnv, SetDelayStart,
    SetRetryTimes, Mem.store, Lock, Unlock, Function.update_noteq h]

theorem CloneChild_record (c : Ptr) (draws : Nat → Nat) (m : Mem) (hc : c < m.nextProc) :
    (CloneChild c draws m).2.procs m.nextProc
      = { toCmd :=
            { cmd.NewCmdOptions ⟨false, true⟩ (m.procs c).Name (m.procs c).Args with
              Dir := (m.procs c).Dir, Env := (m.procs c).Env },
          id := randomKey idLength draws,
          DelayStart := (m.procs c).DelayStart,
          RetryTimes := (m.procs c).RetryTimes } := by
  have h : c ≠ m.nextProc := Nat.ne_of_lt hc
  simp [CloneChild, Mem.load, Mem.new, Mem.note, SetDir, SetEnv, SetDelayStart,
    SetRetryTimes, Mem.store, Lock, Unlock, Function.update_noteq h, cmd.NewCmdOptions]

theorem CloneChild_log (c : Ptr) (draws : Nat → Nat) (m : Mem) :
    (CloneChild c draws m).2.log
      = m.log ++ [Event.read c Field.Name, Event.read c Field.Args,
          Event.read c Field.Dir,
          Event.lock m.nextProc, Event.write m.nextProc Field.Dir, Event.unlock m.nextProc,
          Event.read c Field.Env,
          Event.lock m.nextProc, Event.write m.nextProc Field.Env, Event.unlock m.nextProc,
          Event.read c Field.DelayStart,
          Event.lock m.nextProc, Event.write m.nextProc Field.DelayStart,
          Event.unlock m.nextProc,
          Event.read c Field.RetryTimes,
          Event.lock m.nextProc, Event.write m.nextProc Field.RetryTimes,
          Event.unlock m.nextProc] := by
  simp [CloneChild, Mem.load, Mem.new, Mem.note, SetDir, SetEnv, SetDelayStart,
    SetRetryTimes, Mem.store, Lock, Unlock]

theorem ToJSON_fst (c : Ptr) (m : Mem) :
    (ToJSON c m).1
      = ⟨Sprint [Operand.str (m.procs c).Name, Operand.str " ",
            Operand.strs (m.elems (m.procs c).Args)],
          (m.procs c).status.PID, (m.procs c).status.Complete, (m.procs c).status.Exit,
          (m.procs c).status.Error, (m.procs c).status.Runtime,
          Time.Unix 0 (m.procs c).status.StartTs,
          (m.procs c).Env, (m.procs c).Dir, (m.procs c).DelayStart,
          (m.procs c).RetryTimes⟩ := rfl

theorem Sprint_name_args (name : String) (args : List String) :
    Sprint [Operand.str name, Operand.str " ", Operand.strs args]
      = name ++ " " ++ "[" ++ " ".intercalate args ++ "]" := by
  have h : (" " : String) ++ "[" = " [" := by decide
  simp [Sprint, doPrint, Operand.isString, Operand.format, String.append_assoc]
  rw [← String.append_assoc " " "[", h]

theorem randomKey_length (n : Nat) (draws : Nat → Nat) : (randomKey n draws).length = n := by
  simp [randomKey, String.length]

/-! ## The claims -/

/-- C1: for every allocated source record `c`, whatever its fields,
`CloneChild` returns a record with the same `Name` and `Args` (same
elements) whose `Dir`, `Env` (header and elements), `DelayStart` and
`RetryTimes` equal those of `c` at the time of the call, and the snapshot of
the clone reports them; after `NewChild("echo", "hello")`,
`SetDelayStart(100)`, `SetRetryTimes(5)` the snapshot of the clone has
delayStart 100 and retryTimes 5. -/
theorem CloneChild_copies_config (c : Ptr) (draws : Nat → Nat) (m : Mem)
    (hc : c < m.nextProc) :
    let src := m.procs c
    let out := CloneChild c draws m
    let clone := out.2.procs out.1
    (clone.Name = src.Name ∧ clone.Args = src.Args
        ∧ out.2.elems clone.Args = m.elems src.Args
        ∧ clone.Dir = src.Dir ∧ clone.Env = src.Env
        ∧ out.2.elems clone.Env = m.elems src.Env
        ∧ clone.DelayStart = src.DelayStart ∧ clone.RetryTimes = src.RetryTimes
        ∧ (ToJSON out.1 out.2).1.Dir = src.Dir
        ∧ (ToJSON out.1 out.2).1.Env = src.Env
        ∧ (ToJSON out.1 out.2).1.DelayStart = src.DelayStart
        ∧ (ToJSON out.1 out.2).1.RetryTimes = src.RetryTimes)
      ∧ ∀ (m0 : Mem) (d1 d2 : Nat → Nat),
          let a := m0.newSlice ["hello"]
          let n := NewChild "echo" a.1 d1 a.2
          let cl := CloneChild n.1 d2 (SetRetryTimes n.1 5 (SetDelayStart n.1 100 n.2))
          (ToJSON cl.1 cl.2).1.DelayStart = 100 ∧ (ToJSON cl.1 cl.2).1.RetryTimes = 5 := by
  intro src out clone
  have key : ∀ (c : Ptr) (draws : Nat → Nat) (m : Mem), c < m.nextProc →
      (CloneChild c draws m).2.procs (CloneChild c draws m).1
        = { toCmd :=
              { cmd.NewCmdOptions ⟨false, true⟩ (m.procs c).Name (m.procs c).Args with
                Dir := (m.procs c).Dir, Env := (m.procs c).Env },
            id := randomKey idLength draws,
            DelayStart := (m.procs c).DelayStart,
            RetryTimes := (m.procs c).RetryTimes } := by
    intro c draws m h
    rw [CloneChild_fst, CloneChild_record c draws m h]
  refine ⟨?_, ?_⟩
  · have hrec := key c draws m hc
    simp only [clone, out, src, ToJSON_fst, hrec, Mem.elems, CloneChild_arrays]
    simp [cmd.NewCmdOptions]
  · intro m0 d1 d2 a n cl
    have hn : n.1 < (SetRetryTimes n.1 5 (SetDelayStart n.1 100 n.2)).nextProc := by
      show m0.nextProc < m0.nextProc + 1
      exact Nat.lt_succ_self _
    have hrec := key n.1 d2 _ hn
    simp only [cl, ToJSON_fst, hrec]
    simp [SetRetryTimes_procs, SetDelayStart_procs]

/-- Witness of C1: the record at address 0 of `echoMem` is allocated, and its
clone has `DelayStart` 100. -/
theorem CloneChild_copies_config_witness :
    0 < echoMem.nextProc
      ∧ ((CloneChild 0 (fun i => 7 * i) echoMem).2.procs
          (CloneChild 0 (fun i => 7 * i) echoMem).1).DelayStart = (echoMem.procs 0).DelayStart :=
  ⟨by decide,
    (CloneChild_copies_config 0 (fun i => 7 * i) echoMem (by decide)).1.2.2.2.2.2.2.1⟩

/-- C3: for every command name and argument list, the record returned by
`NewChild` has `DelayStart = 25` and `RetryTimes = 3`, `ToJSON` on it reports
delayStart 25 and retryTimes 3, and it keeps reporting each of them after any
sequence of mutator calls in which no setter overrides that field. -/
theorem NewChild_defaults (name : String) (args : StrSlice) (draws : Nat → Nat) (m : Mem)
    (xs : List Mutation) :
    let n := NewChild name args draws m
    (n.2.procs n.1).DelayStart = 25 ∧ (n.2.procs n.1).RetryTimes = 3
      ∧ (ToJSON n.1 n.2).1.DelayStart = 25 ∧ (ToJSON n.1 n.2).1.RetryTimes = 3
      ∧ ((∀ x ∈ xs, x.isSetDelayStart = false) →
          (ToJSON n.1 (callAll n.1 xs n.2)).1.DelayStart = 25)
      ∧ ((∀ x ∈ xs, x.isSetRetryTimes = false) →
          (ToJSON n.1 (callAll n.1 xs n.2)).1.RetryTimes = 3) := by
  intro n
  have hrec : n.2.procs n.1
      = { toCmd := cmd.NewCmdOptions ⟨false, true⟩ name args, id := randomKey idLength draws,
          DelayStart := 25, RetryTimes := 3 } := by
    simp only [n, NewChild_fst, NewChild_record]
  refine ⟨by rw [hrec], by rw [hrec], by rw [ToJSON_fst, hrec], by rw [ToJSON_fst, hrec], ?_, ?_⟩
  · intro h
    rw [ToJSON_fst]
    show ((callAll n.1 xs n.2).procs n.1).DelayStart = 25
    rw [callAll_DelayStart n.1 xs n.2 h, hrec]
  · intro h
    rw [ToJSON_fst]
    show ((callAll n.1 xs n.2).procs n.1).RetryTimes = 3
    rw [callAll_RetryTimes n.1 xs n.2 h, hrec]

/-- Witness of C3: after `SetDir` and `SetEnv` on a fresh record the snapshot
still reports delayStart 25. -/
theorem NewChild_defaults_witness :
    (∀ x ∈ [Mutation.SetDir "/tmp", Mutation.SetEnv StrSlice.nil],
        x.isSetDelayStart = false)
      ∧ (ToJSON (NewChild "echo" StrSlice.nil (fun i => i) Mem.empty).1
          (callAll (NewChild "echo" StrSlice.nil (fun i => i) Mem.empty).1
            [Mutation.SetDir "/tmp", Mutation.SetEnv StrSlice.nil]
            (NewChild "echo" StrSlice.nil (fun i => i) Mem.empty).2)).1.DelayStart = 25 :=
  ⟨by decide,
    (NewChild_defaults "echo" StrSlice.nil (fun i => i) Mem.empty
      [Mutation.SetDir "/tmp", Mutation.SetEnv StrSlice.nil]).2.2.2.2.1 (by decide)⟩

/-- C4: each mutator overwrites exactly its own field: after `SetDir(v)`,
`SetEnv(v)`, `SetDelayStart(v)`, `SetRetryTimes(v)` the record has `Dir`,
`Env`, `DelayStart`, `RetryTimes` equal to `v` and every other field as
before, no other record and no backing array changes, and after any
sequence of mutator calls the id, `Name` and `Args` of a record are the ones
it had before, in particular the ones set at construction by `NewChild`. -/
theorem mutators_overwrite_own_field (c : Ptr) (m : Mem) :
    (∀ v, (SetDir c v m).procs c = { m.procs c with Dir := v })
      ∧ (∀ v, (SetEnv c v m).procs c = { m.procs c with Env := v })
      ∧ (∀ v, (SetDelayStart c v m).procs c = { m.procs c with DelayStart := v })
      ∧ (∀ v, (SetRetryTimes c v m).procs c = { m.procs c with RetryTimes := v })
      ∧ (∀ v, ((SetDir c v m).procs c).Dir = v)
      ∧ (∀ v, ((SetEnv c v m).procs c).Env = v)
      ∧ (∀ v, ((SetDelayStart c v m).procs c).DelayStart = v)
      ∧ (∀ v, ((SetRetryTimes c v m).procs c).RetryTimes = v)
      ∧ (∀ (x : Mutation) (q : Ptr), q ≠ c → (x.call c m).procs q = m.procs q)
      ∧ (∀ x : Mutation, (x.call c m).arrays = m.arrays)
      ∧ (∀ xs : List Mutation,
          ((callAll c xs m).procs c).id = (m.procs c).id
            ∧ ((callAll c xs m).procs c).Name = (m.procs c).Name
            ∧ ((callAll c xs m).procs c).Args = (m.procs c).Args)
      ∧ (∀ (name : String) (args : StrSlice) (draws : Nat → Nat) (xs : List Mutation),
          let n := NewChild name args draws m
          ((callAll n.1 xs n.2).procs n.1).id = randomKey idLength draws
            ∧ ((callAll n.1 xs n.2).procs n.1).Name = name
            ∧ ((callAll n.1 xs n.2).procs n.1).Args = args) := by
  refine ⟨?_, ?_, ?_, ?_, ?_, ?_, ?_, ?_, ?_, ?_, ?_, ?_⟩
  · intro v; simp [SetDir_procs]
  · intro v; simp [SetEnv_procs]
  · intro v; simp [SetDelayStart_procs]
  · intro v; simp [SetRetryTimes_procs]
  · intro v; simp [SetDir_procs]
  · intro v; simp [SetEnv_procs]
  · intro v; simp [SetDelayStart_procs]
  · intro v; simp [SetRetryTimes_procs]
  · intro x q h; exact call_procs_other c q x m h
  · intro x; exact call_arrays c x m
  · intro xs
    obtain ⟨h1, h2, h3, _, _⟩ := callAll_fixed c xs m
    exact ⟨h1, h2, h3⟩
  · intro name args draws xs n
    obtain ⟨h1, h2, h3, _, _⟩ := callAll_fixed n.1 xs n.2
    have hrec : n.2.procs n.1
        = { toCmd := cmd.NewCmdOptions ⟨false, true⟩ name args,
            id := randomKey idLength draws, DelayStart := 25, RetryTimes := 3 } := by
      simp only [n, NewChild_fst, NewChild_record]
    rw [h1, h2, h3, hrec]
    simp [cmd.NewCmdOptions]

/-- Witness of C4: `SetDelayStart` on record 0 of `echoMem` leaves record 1
as it was. -/
theorem mutators_overwrite_own_field_witness :
    (1 : Ptr) ≠ 0
      ∧ ((Mutation.SetDelayStart 7).call 0 echoMem).procs 1 = echoMem.procs 1 :=
  ⟨by decide,
    (mutators_overwrite_own_field 0 echoMem).2.2.2.2.2.2.2.2.1
      (Mutation.SetDelayStart 7) 1 (by decide)⟩

/-- C5, as stated, fails: for the record of `NewChild("echo", "hello")` the
cmd field of the snapshot is `echo [hello]`, not the name followed by a
space and the space-joined arguments (`echo hello`). -/
theorem ToJSON_cmd_not_plain_join :
    (freshMem.procs 0).Name = "echo"
      ∧ freshMem.elems (freshMem.procs 0).Args = ["hello"]
      ∧ (ToJSON 0 freshMem).1.Cmd = "echo [hello]"
      ∧ (ToJSON 0 freshMem).1.Cmd
          ≠ (freshMem.procs 0).Name ++ " "
              ++ " ".intercalate (freshMem.elems (freshMem.procs 0).Args) := by
  decide

/-- C5, amended: for every record with command name `n` and arguments
`a1 ... ak`, the cmd field of `ToJSON()` is `n`, a single space, an opening
square bracket, the arguments joined by single spaces, and a closing square
bracket. -/
theorem ToJSON_cmd_bracketed (c : Ptr) (m : Mem) :
    (ToJSON c m).1.Cmd
      = (m.procs c).Name ++ " " ++ "[" ++ " ".intercalate (m.elems (m.procs c).Args) ++ "]" := by
  rw [ToJSON_fst]
  exact Sprint_name_args _ _

/-- C6: the PID, complete, exitCode, error and runTime fields of the
snapshot equal the corresponding fields of `Status()`, its env, dir,
delayStart and retryTimes equal the current fields of the record, and for a
record whose `Status()` is the all-zero status the snapshot reports
complete = false, PID = 0 and runTime = 0. -/
theorem ToJSON_projects_status_and_config (c : Ptr) (m : Mem) :
    (ToJSON c m).1.PID = (Status c m).1.PID
      ∧ (ToJSON c m).1.Complete = (Status c m).1.Complete
      ∧ (ToJSON c m).1.ExitCode = (Status c m).1.Exit
      ∧ (ToJSON c m).1.Error = (Status c m).1.Error
      ∧ (ToJSON c m).1.RunTime = (Status c m).1.Runtime
      ∧ (ToJSON c m).1.Env = (m.procs c).Env
      ∧ (ToJSON c m).1.Dir = (m.procs c).Dir
      ∧ (ToJSON c m).1.DelayStart = (m.procs c).DelayStart
      ∧ (ToJSON c m).1.RetryTimes = (m.procs c).RetryTimes
      ∧ ((Status c m).1 = cmd.Status.zero →
          (ToJSON c m).1.Complete = false ∧ (ToJSON c m).1.PID = 0
            ∧ (ToJSON c m).1.RunTime = 0) := by
  refine ⟨rfl, rfl, rfl, rfl, rfl, rfl, rfl, rfl, rfl, ?_⟩
  intro h
  rw [Status_fst] at h
  rw [ToJSON_fst]
  simp [h, cmd.Status.zero]

/-- Witness of C6: the record of `freshMem` was never started, and its
snapshot has PID 0. -/
theorem ToJSON_projects_status_and_config_witness :
    (Status 0 freshMem).1 = cmd.Status.zero ∧ (ToJSON 0 freshMem).1.PID = 0 :=
  ⟨by decide,
    ((ToJSON_projects_status_and_config 0 freshMem).2.2.2.2.2.2.2.2.2 (by decide)).2.1⟩

/-- C7, as stated, fails: the record of `freshMem` was never started
(`StartTs = 0`), yet the startTime of its snapshot is not the zero value of
the timestamp type, and `IsZero` is false on it. -/
theorem ToJSON_startTime_not_zero_value :
    (Status 0 freshMem).1.StartTs = 0
      ∧ (ToJSON 0 freshMem).1.StartTime ≠ Time.zero
      ∧ (ToJSON 0 freshMem).1.StartTime.IsZero = false := by
  decide

/-- C7, amended: the startTime field of `ToJSON()` is `time.Unix(0, StartTs)`;
for a record that was never started (`StartTs = 0`) it is `time.Unix(0, 0)`,
the Unix epoch January 1, 1970 00:00:00 UTC in the local location, which
lies 62135596800 seconds after the zero value of the timestamp type. -/
theorem ToJSON_startTime_epoch (c : Ptr) (m : Mem) (h : (Status c m).1.StartTs = 0) :
    (ToJSON c m).1.StartTime = Time.Unix 0 (Status c m).1.StartTs
      ∧ (ToJSON c m).1.StartTime = Time.Unix 0 0
      ∧ (ToJSON c m).1.StartTime = ⟨0, 62135596800, some "Local"⟩
      ∧ (ToJSON c m).1.StartTime.ext = Time.zero.ext + 62135596800 := by
  rw [Status_fst] at h
  rw [ToJSON_fst, Status_fst]
  simp only [h]
  decide

/-- Witness of C7: the record of `freshMem` has `StartTs = 0` and the
startTime of its snapshot is `time.Unix(0, 0)`. -/
theorem ToJSON_startTime_epoch_witness :
    (Status 0 freshMem).1.StartTs = 0 ∧ (ToJSON 0 freshMem).1.StartTime = Time.Unix 0 0 :=
  ⟨by decide, (ToJSON_startTime_epoch 0 freshMem (by decide)).2.1⟩

/-- C8: for every source record, whatever its status (created, running or
run to completion), the handle of the record returned by `CloneChild` is the
brand-new handle that `cmd.NewCmdOptions` makes for the name and arguments
of the source: its status, as stored and as returned by `Status()`, is the
all-zero status, and the snapshot of the clone reports PID 0, complete
false, exit code 0, no error and runtime 0; for the completed record of
`doneMem` (PID 4242, exit code 1) the status of the clone is all-zero. -/
theorem CloneChild_status_fresh (c : Ptr) (draws : Nat → Nat) (m : Mem) :
    let out := CloneChild c draws m
    ((out.2.procs out.1).status
          = (cmd.NewCmdOptions ⟨false, true⟩ (m.procs c).Name (m.procs c).Args).status
        ∧ (out.2.procs out.1).status = cmd.Status.zero
        ∧ (Status out.1 out.2).1 = cmd.Status.zero
        ∧ (ToJSON out.1 out.2).1.PID = 0
        ∧ (ToJSON out.1 out.2).1.Complete = false
        ∧ (ToJSON out.1 out.2).1.ExitCode = 0
        ∧ (ToJSON out.1 out.2).1.Error = none
        ∧ (ToJSON out.1 out.2).1.RunTime = 0)
      ∧ (Status 0 doneMem).1.Complete = true
      ∧ (Status 0 doneMem).1.PID = 4242
      ∧ (Status (CloneChild 0 draws doneMem).1 (CloneChild 0 draws doneMem).2).1
          = cmd.Status.zero := by
  have key : ∀ (c : Ptr) (m : Mem),
      ((CloneChild c draws m).2.procs (CloneChild c draws m).1).status = cmd.Status.zero := by
    intro c m
    simp [CloneChild, Mem.load, Mem.new, Mem.note, SetDir, SetEnv, SetDelayStart,
      SetRetryTimes, Mem.store, Lock, Unlock, cmd.NewCmdOptions]
  intro out
  refine ⟨⟨?_, key c m, ?_, ?_, ?_, ?_, ?_, ?_⟩, by decide, by decide, ?_⟩
  · rw [key c m]; rfl
  · rw [Status_fst]; exact key c m
  · rw [ToJSON_fst]; simp only [out, key c m]; rfl
  · rw [ToJSON_fst]; simp only [out, key c m]; rfl
  · rw [ToJSON_fst]; simp only [out, key c m]; rfl
  · rw [ToJSON_fst]; simp only [out, key c m]; rfl
  · rw [ToJSON_fst]; simp only [out, key c m]; rfl
  · rw [Status_fst]; exact key 0 doneMem

/-- C9, as stated, fails: when the generator returns for the clone the key it
returned for the source (here both draw `abcdefghijklmnop`), the id of the
clone equals the id of the source. -/
theorem CloneChild_id_can_collide :
    (echoMem.procs 0).id = "abcdefghijklmnop"
      ∧ ((CloneChild 0 (fun i => i) echoMem).2.procs
          (CloneChild 0 (fun i => i) echoMem).1).id = (echoMem.procs 0).id := by
  decide

/-- C9, amended: for every source record, `CloneChild` gives the clone a newly
generated id, the result of a fresh `randomKey(16)` call as in `NewChild`:
16 characters computed from the draws of the generator alone, never copied
from the source, so the same draws give the same id whatever the source is;
it differs from the id of the source exactly when the generated key does. -/
theorem CloneChild_id_fresh (c : Ptr) (draws : Nat → Nat) (m : Mem) :
    let out := CloneChild c draws m
    (out.2.procs out.1).id = randomKey idLength draws
      ∧ (out.2.procs out.1).id.length = 16
      ∧ (∀ (name : String) (args : StrSlice) (m0 : Mem),
          ((NewChild name args draws m0).2.procs (NewChild name args draws m0).1).id
            = (out.2.procs out.1).id)
      ∧ (∀ (c2 : Ptr) (m2 : Mem),
          ((CloneChild c2 draws m2).2.procs (CloneChild c2 draws m2).1).id
            = (out.2.procs out.1).id)
      ∧ ((out.2.procs out.1).id ≠ (m.procs c).id
          ↔ randomKey idLength draws ≠ (m.procs c).id) := by
  have key : ∀ (c : Ptr) (m : Mem),
      ((CloneChild c draws m).2.procs (CloneChild c draws m).1).id
        = randomKey idLength draws := by
    intro c m
    simp [CloneChild, Mem.load, Mem.new, Mem.note, SetDir, SetEnv, SetDelayStart,
      SetRetryTimes, Mem.store, Lock, Unlock]
  intro out
  refine ⟨key c m, ?_, ?_, ?_, ?_⟩
  · simp only [out, key c m]
    exact randomKey_length 16 draws
  · intro name args m0
    simp only [out, key c m, NewChild_fst, NewChild_record]
  · intro c2 m2
    simp only [out, key c m, key c2 m2]
  · simp only [out, key c m]

/-- C2, as stated, fails: the source of `envMem` has environment `A=1`; its
clone gets the same slice header, hence the same backing array, and the
later assignment `c.Env[0] = "B=2"` on the source changes the environment
read through the clone from `A=1` to `B=2`. -/
theorem CloneChild_shares_env_array :
    envMem.elems (envMem.procs 0).Env = ["A=1"]
      ∧ ((CloneChild 0 (fun i => 7 * i) envMem).2.procs 1).Env.arr
          = ((CloneChild 0 (fun i => 7 * i) envMem).2.procs 0).Env.arr
      ∧ (CloneChild 0 (fun i => 7 * i) envMem).2.elems
          ((CloneChild 0 (fun i => 7 * i) envMem).2.procs 1).Env = ["A=1"]
      ∧ ((CloneChild 0 (fun i => 7 * i) envMem).2.setElem
            ((CloneChild 0 (fun i => 7 * i) envMem).2.procs 0).Env 0 "B=2").map
          (fun m => m.elems (m.procs 1).Env) = some ["B=2"] := by
  decide

/-- C2, amended: for every allocated record `c` and its clone `p`, the clone
is a different record, `CloneChild` leaves the source as it was, and any
later sequence of `SetDir`, `SetEnv`, `SetDelayStart`, `SetRetryTimes` calls
on `c` leaves every field of `p` and the elements of its `Env` unchanged, and
any such sequence on `p` leaves every field of `c` and the elements of its
`Env` unchanged; the `Env` of the clone is the slice header of the source, so
both refer to one backing array. -/
theorem CloneChild_independent_under_mutators (c : Ptr) (draws : Nat → Nat) (m : Mem)
    (hc : c < m.nextProc) (xs : List Mutation) :
    let out := CloneChild c draws m
    out.1 ≠ c
      ∧ out.2.procs c = m.procs c
      ∧ (callAll c xs out.2).procs out.1 = out.2.procs out.1
      ∧ (callAll c xs out.2).elems (out.2.procs out.1).Env
          = out.2.elems (out.2.procs out.1).Env
      ∧ (callAll out.1 xs out.2).procs c = out.2.procs c
      ∧ (callAll out.1 xs out.2).elems (out.2.procs c).Env
          = out.2.elems (out.2.procs c).Env
      ∧ (out.2.procs out.1).Env = (out.2.procs c).Env := by
  intro out
  have hne : out.1 ≠ c := by
    show m.nextProc ≠ c
    exact (Nat.ne_of_lt hc).symm
  have hsrc : out.2.procs c = m.procs c :=
    CloneChild_procs_other c c draws m (Nat.ne_of_lt hc)
  refine ⟨hne, hsrc, callAll_procs_other c out.1 xs out.2 hne, callAll_elems _ _ _ _,
    callAll_procs_other out.1 c xs out.2 hne.symm, callAll_elems _ _ _ _, ?_⟩
  rw [hsrc]
  show ((CloneChild c draws m).2.procs (CloneChild c draws m).1).Env = (m.procs c).Env
  rw [CloneChild_fst, CloneChild_record c draws m hc]

/-- Witness of C2: record 0 of `envMem` is allocated, and `SetEnv` with the nil
slice on it after the clone leaves the record of the clone as it was. -/
theorem CloneChild_independent_under_mutators_witness :
    0 < envMem.nextProc
      ∧ (callAll 0 [Mutation.SetEnv StrSlice.nil]
            (CloneChild 0 (fun i => 7 * i) envMem).2).procs
          (CloneChild 0 (fun i => 7 * i) envMem).1
          = (CloneChild 0 (fun i => 7 * i) envMem).2.procs
              (CloneChild 0 (fun i => 7 * i) envMem).1 :=
  ⟨by decide,
    (CloneChild_independent_under_mutators 0 (fun i => 7 * i) envMem (by decide)
      [Mutation.SetEnv StrSlice.nil]).2.2.1⟩

/-- C10 on the code: each mutator accesses its field between `Lock` and
`Unlock`, but `ToJSON` holds the lock only inside `Status()` and then reads
`Env`, `Dir`, `DelayStart` and `RetryTimes` with the lock released, and
`CloneChild` reads the four fields of the source without ever locking the
source: the events of these two calls are not guarded. -/
theorem config_reads_outside_lock (c : Ptr) (draws : Nat → Nat) (m : Mem) :
    (∀ v, guarded [] (SetDir c v m.clearLog).log = true)
      ∧ (∀ v, guarded [] (SetEnv c v m.clearLog).log = true)
      ∧ (∀ v, guarded [] (SetDelayStart c v m.clearLog).log = true)
      ∧ (∀ v, guarded [] (SetRetryTimes c v m.clearLog).log = true)
      ∧ (ToJSON c m.clearLog).2.log
          = [Event.lock c, Event.read c Field.status, Event.unlock c,
              Event.read c Field.Name, Event.read c Field.Args, Event.read c Field.Env,
              Event.read c Field.Dir, Event.read c Field.DelayStart,
              Event.read c Field.RetryTimes]
      ∧ guarded [] (ToJSON c m.clearLog).2.log = false
      ∧ guarded [] (CloneChild c draws m.clearLog).2.log = false := by
  refine ⟨?_, ?_, ?_, ?_, ?_, ?_, ?_⟩
  · intro v
    simp [SetDir, Mem.store, Mem.note, Lock, Unlock, Mem.clearLog, guarded, Field.isConfig]
  · intro v
    simp [SetEnv, Mem.store, Mem.note, Lock, Unlock, Mem.clearLog, guarded, Field.isConfig]
  · intro v
    simp [SetDelayStart, Mem.store, Mem.note, Lock, Unlock, Mem.clearLog, guarded,
      Field.isConfig]
  · intro v
    simp [SetRetryTimes, Mem.store, Mem.note, Lock, Unlock, Mem.clearLog, guarded,
      Field.isConfig]
  · simp [ToJSON, Status, Mem.load, Mem.note, Lock, Unlock, Mem.clearLog]
  · simp [ToJSON, Status, Mem.load, Mem.note, Lock, Unlock, Mem.clearLog, guarded,
      Field.isConfig]
  · rw [CloneChild_log]
    simp [Mem.clearLog, guarded, Field.isConfig]

end Overseer
